import Mathlib

/-!
Verification of the pixel-canvas economy engine (`src/main.py`) against its
natural-language specification.

The Python service is embedded shallowly: the SQLite tables become fields of
a `GState` record (users and pixels as partial maps, the placement log as an
association list keyed by autoincrement id, reports as a list of timestamps),
each HTTP handler's core becomes a state-passing function returning
`Except ApiError`, and an exception raised inside a transaction — which the
`get_db` context manager turns into a rollback — is modelled as an `.error`
result that leaves the caller's state untouched.  Timestamps are integers
(seconds); every comparison in the source is on whole-second thresholds, so
integer time is enough to express all boundary cases.

Monetary arithmetic is exact integer arithmetic.  The two places where the
source multiplies an integer by a Python float and truncates
(`int(cost * (1 - 0.10))` and
`int(original_cost * (0.25 + undo_count * 0.10))`) are embedded as the exact
truncated products `cost * 9 / 10` resp. `c * (25 + 10*k) / 100`; the
doc comments of `calculate_pixel_cost` and `undoCostFn` record exactly where
binary floating point agrees with this model.  The discount agrees on the
whole reachable range; the undo fee agrees only at escalation count 0, so
no claim theorem equates the fee with the exact product beyond that count —
the balance theorems (C1, C2) are stated against the fee the undo actually
charges and returns in its response.
-/

/-! ## Constants (`src/main.py` lines 38-56) -/

def BOARD_SIZE : Nat := 1024
def BASE_COST_CREDITS : Nat := 1000
def COST_INCREMENT_CREDITS : Nat := 1000
def INITIAL_CAP_CREDITS : Nat := 200000
def LOWER_CAP_CREDITS : Nat := 150000
def CAP_TRIGGER_COUNT : Nat := 100
def INACTIVITY_THRESHOLD_SECONDS : Int := 1800
def FREE_ELIGIBILITY_MAX_PAID : Nat := 500
def RATE_LIMIT_SECONDS : Int := 1
def UNDO_WINDOW_SECONDS : Int := 300
def REPORT_FREEZE_THRESHOLD : Nat := 2500
def END_OF_WEEK_WINDOW_SECONDS : Int := 21600
def WEEK_SECONDS : Int := 604800

/-! ## Data model (the SQLite schema of `init_db`, lines 79-215) -/

/-- A row of the `users` table (the columns the engine reads/writes). -/
structure UserRec where
  credits : Int
  lifetimePaid : Nat
  undoEsc : Nat
  adViolations : Nat
  deriving DecidableEq, Repr

/-- A row of the `pixels` table, keyed externally by `(x, y)`. -/
structure Pixel where
  color : String
  costLevel : Nat
  ownerId : Option Nat
  isAd : Bool
  deriving DecidableEq, Repr

/-- A row of the `placements` log, keyed externally by its autoincrement id. -/
structure Placement where
  userId : Nat
  x : Nat
  y : Nat
  color : String
  cost : Nat
  wasFree : Bool
  isAd : Bool
  canUndo : Bool
  prevColor : Option String
  prevOwner : Option Nat
  placedAt : Int
  deriving DecidableEq, Repr

/-- One cell of an archived snapshot (`create_archive_snapshot` stores
`x, y, color, owner_id, is_ad` and not the cost level). -/
structure SnapCell where
  x : Nat
  y : Nat
  color : String
  ownerId : Option Nat
  isAd : Bool
  deriving DecidableEq, Repr

/-- A row of the `archives` table. -/
structure Archive where
  weekStart : Int
  weekEnd : Int
  snapshot : List SnapCell
  totalPlacements : Nat
  uniqueContributors : Nat
  deriving DecidableEq, Repr

/-- The whole durable state plus the in-memory rate-limit map:
`users`, `pixels`, `placements`, `reports` (only timestamps matter to the
engine), `archives`, the `global_state` key-value rows
(`week_start`, `last_placement`, `current_cap`, `board_frozen`) and
`user_last_placement` guarded by `rate_limit_lock`. -/
structure GState where
  users : Nat → Option UserRec
  pixels : Nat → Nat → Option Pixel
  placements : List (Nat × Placement)
  nextPlacementId : Nat
  reports : List Int
  archives : List Archive
  weekStart : Int
  lastPlacement : Int
  currentCap : Nat
  boardFrozen : Bool
  rateLimit : Nat → Option Int

/-- The error taxonomy of the handlers, by HTTP status:
422 invalid argument (pydantic validation), 403 frozen / not-your-placement,
404 not found, 429 rate limited, 402 insufficient credits,
400 cannot-undo / undo-window-expired. -/
inductive ApiError where
  | invalidArgument
  | frozen
  | notFound
  | rateLimited
  | insufficientCredits
  | notYourPlacement
  | cannotUndo
  | windowExpired
  deriving DecidableEq, Repr

/-- Reason string attached to a free placement. -/
inductive FreeReason where
  | inactivity
  | endOfWeek
  deriving DecidableEq, Repr

/-- Response of `place_pixel` (`PlacePixelResponse` minus the message). -/
structure PlaceResult where
  cost : Nat
  wasFree : Bool
  newBalance : Int
  placementId : Nat
  deriving DecidableEq, Repr

/-- Response of `undo_placement`. -/
structure UndoResult where
  undoCost : Nat
  newBalance : Int
  deriving DecidableEq, Repr

/-! ## Helper queries -/

/-- Cost level of a cell as `calculate_pixel_cost` reads it:
a missing row counts as level `0`. -/
def cellLevel (st : GState) (x y : Nat) : Nat :=
  match st.pixels x y with
  | some p => p.costLevel
  | none => 0

/-- Ad flag of a cell as `calculate_pixel_cost` reads it. -/
def cellIsAd (st : GState) (x y : Nat) : Bool :=
  match st.pixels x y with
  | some p => p.isAd
  | none => false

/-- Embeds `count_week_reports` (lines 263-270): reports whose timestamp is at or
after the current `week_start`. -/
def count_week_reports (st : GState) : Nat :=
  (st.reports.filter fun t => st.weekStart ≤ t).length

/-- Lookup in the placement log by id (`SELECT ... FROM placements WHERE id = ?`). -/
def placementLookup (st : GState) (pid : Nat) : Option Placement :=
  (st.placements.find? fun e => e.1 = pid).map fun e => e.2

/-- The DB invariant provided by SQLite's autoincrement ids: every id already
in the log is smaller than the next id to be handed out. -/
def idsFresh (st : GState) : Bool :=
  st.placements.all fun e => e.1 < st.nextPlacementId

/-- All pixel rows of the bounded board, in scan order
(`SELECT ... FROM pixels`; the pydantic validators keep every written
coordinate inside the board). -/
def allBoardPixels (pixels : Nat → Nat → Option Pixel) : List ((Nat × Nat) × Pixel) :=
  (List.range BOARD_SIZE).flatMap fun a =>
    (List.range BOARD_SIZE).filterMap fun b => (pixels a b).map fun p => ((a, b), p)

/-- The board snapshot rows stored by `create_archive_snapshot` (lines 314-349). -/
def boardSnapshot (pixels : Nat → Nat → Option Pixel) : List SnapCell :=
  (allBoardPixels pixels).map fun e =>
    { x := e.1.1, y := e.1.2, color := e.2.color, ownerId := e.2.ownerId, isAd := e.2.isAd }

/-- Embeds `create_archive_snapshot` (lines 314-349): snapshot the board and count
the placements (and distinct contributors) of the closing week. -/
def create_archive_snapshot (st : GState) (weekStart weekEnd : Int) : Archive :=
  let weekPl := st.placements.filter fun e => weekStart ≤ e.2.placedAt ∧ e.2.placedAt < weekEnd
  { weekStart := weekStart
    weekEnd := weekEnd
    snapshot := boardSnapshot st.pixels
    totalPlacements := weekPl.length
    uniqueContributors := ((weekPl.map fun e => e.2.userId).dedup).length }

/-- Embeds `check_and_reset_week` (lines 272-312): when at least seven days have
passed since `week_start`, archive a snapshot, zero every pixel's
`cost_level`, zero every user's `undo_escalation_count`, reset the cap,
unfreeze the board and restart the week at `now`; otherwise do nothing. -/
def check_and_reset_week (now : Int) (st : GState) : GState :=
  if WEEK_SECONDS ≤ now - st.weekStart then
    { st with
      archives := st.archives ++ [create_archive_snapshot st st.weekStart now]
      pixels := fun a b => (st.pixels a b).map fun p => { p with costLevel := 0 }
      users := fun i => (st.users i).map fun u => { u with undoEsc := 0 }
      weekStart := now
      currentCap := INITIAL_CAP_CREDITS
      boardFrozen := false }
  else st

/-- Whether the requesting user's row exists and its
`lifetime_paid_placements` is at most `FREE_ELIGIBILITY_MAX_PAID`
(the `if row and row[0] <= FREE_ELIGIBILITY_MAX_PAID` checks of
`is_free_placement_eligible`). -/
def userPaidOk (st : GState) (uid : Nat) : Bool :=
  match st.users uid with
  | some u => u.lifetimePaid ≤ FREE_ELIGIBILITY_MAX_PAID
  | none => false

/-- Embeds `is_free_placement_eligible` (lines 361-413).  The two live triggers, in
source order: global inactivity of at least `INACTIVITY_THRESHOLD_SECONDS`,
then the final `END_OF_WEEK_WINDOW_SECONDS` of the week; both gated by
`userPaidOk`.  (The queries about the `FREE_WINDOW_SIZE` placement-count
window in the source are dead: their results are never used.) -/
def is_free_placement_eligible (st : GState) (now : Int) (uid : Nat) :
    Bool × Option FreeReason :=
  if INACTIVITY_THRESHOLD_SECONDS ≤ now - st.lastPlacement ∧ userPaidOk st uid = true then
    (true, some .inactivity)
  else if st.weekStart + WEEK_SECONDS - now < END_OF_WEEK_WINDOW_SECONDS
      ∧ userPaidOk st uid = true then
    (true, some .endOfWeek)
  else
    (false, none)

/-- Embeds `calculate_pixel_cost` (lines 415-437): base plus
`cost_level * COST_INCREMENT_CREDITS // 1000`, a 10% discount (truncated)
when overwriting an ad, then clamped to the current cap.  The source line
`int(cost * (1 - AD_OVERWRITE_DISCOUNT))` multiplies by the binary double
`1 - 0.10` (slightly above 9/10) and truncates; this equals the exact
`cost * 9 / 10` for every cost up to 2 * 10^6 (checked exhaustively) and far
beyond, so the integer embedding is exact on the reachable range. -/
def calculate_pixel_cost (st : GState) (x y : Nat) : Nat :=
  let cost := BASE_COST_CREDITS + cellLevel st x y * COST_INCREMENT_CREDITS / 1000
  let cost := if cellIsAd st x y = true then cost * 9 / 10 else cost
  min cost st.currentCap

/-- Embeds `update_dynamic_cap` (lines 439-458): while the cap is at its initial
value, once `CAP_TRIGGER_COUNT` pixels have
`cost_level >= current_cap // COST_INCREMENT_CREDITS * 1000`, lower the cap. -/
def update_dynamic_cap (st : GState) : GState :=
  if st.currentCap = INITIAL_CAP_CREDITS then
    let threshold := st.currentCap / COST_INCREMENT_CREDITS * 1000
    let cnt := (allBoardPixels st.pixels).countP fun e => threshold ≤ e.2.costLevel
    if CAP_TRIGGER_COUNT ≤ cnt then { st with currentCap := LOWER_CAP_CREDITS } else st
  else st

/-! ## Placement (`place_pixel`, lines 516-650) -/

/-- The ad-violation soft signal (lines 584-589): overwriting an ad while
claiming the new placement is not one increments `ad_violation_count`. -/
def violationBump (u : UserRec) (prevIsAd isAd : Bool) : UserRec :=
  if prevIsAd = true ∧ isAd = false then { u with adViolations := u.adViolations + 1 } else u

/-- The debit step (lines 591-602): a paid placement debits the cost and
increments `lifetime_paid_placements`; a free one touches nothing. -/
def paidDebit (u : UserRec) (isFree : Bool) (cost : Nat) : UserRec :=
  if isFree = true then u
  else { u with credits := u.credits - (cost : Int), lifetimePaid := u.lifetimePaid + 1 }

/-- State after the frozen check, lazy week reset and the in-memory
rate-limit map update of `place_pixel`. -/
def place_mid (st0 : GState) (now : Int) (uid : Nat) : GState :=
  let st1 := check_and_reset_week now st0
  { st1 with rateLimit := fun i => if i = uid then some now else st1.rateLimit i }

/-- The user row as `place_pixel` leaves it: the violation bump (reading the
overwritten cell's ad flag) followed by the paid debit. -/
def placedUser (st2 : GState) (x y : Nat) (isAd isFree : Bool) (cost : Nat)
    (u : UserRec) : UserRec :=
  paidDebit (violationBump u (cellIsAd st2 x y) isAd) isFree cost

/-- The placement-log record appended by `place_pixel` (lines 617-625),
capturing the overwritten cell's color and owner for a later undo. -/
def placedEntry (st2 : GState) (now : Int) (uid x y : Nat) (color : String)
    (isAd isFree : Bool) (cost : Nat) : Placement :=
  { userId := uid, x := x, y := y, color := color, cost := cost, wasFree := isFree
    isAd := isAd, canUndo := true
    prevColor := (st2.pixels x y).map Pixel.color
    prevOwner := (st2.pixels x y).bind Pixel.ownerId
    placedAt := now }

/-- The committed mutation of `place_pixel` (lines 571-634): capture the
previous cell state, maybe bump the violation counter, debit if paid, upsert
the pixel with `cost_level = previous + COST_INCREMENT_CREDITS`, append the
placement record and refresh `last_placement`. -/
def place_commit (st2 : GState) (now : Int) (uid x y : Nat) (color : String)
    (isAd : Bool) (isFree : Bool) (cost : Nat) (u : UserRec) : GState × PlaceResult :=
  ({ st2 with
      users := fun i =>
        if i = uid then some (placedUser st2 x y isAd isFree cost u) else st2.users i
      pixels := fun a b =>
        if a = x ∧ b = y then
          some { color := color, costLevel := cellLevel st2 x y + COST_INCREMENT_CREDITS
                 ownerId := some uid, isAd := isAd }
        else st2.pixels a b
      placements :=
        st2.placements ++ [(st2.nextPlacementId, placedEntry st2 now uid x y color isAd isFree cost)]
      nextPlacementId := st2.nextPlacementId + 1
      lastPlacement := now },
   { cost := cost, wasFree := isFree
     newBalance := if isFree = true then u.credits else u.credits - (cost : Int)
     placementId := st2.nextPlacementId })

/-- Embeds `place_pixel` (lines 516-650), in source order: coordinate validation
(pydantic), frozen gate, lazy week reset, user existence, rate limit,
eligibility, cost, sufficient-credits gate, committed mutation, then the
post-commit `update_dynamic_cap`.  An `.error` leaves the state unchanged
(the transaction rolls back; the rate-limit map entry a 402 leaves behind is
irrelevant to every property below and folded into the rollback). -/
def place_pixel (st0 : GState) (now : Int) (uid x y : Nat) (color : String)
    (isAd : Bool) : Except ApiError (GState × PlaceResult) :=
  if ¬(x < BOARD_SIZE ∧ y < BOARD_SIZE) then .error .invalidArgument
  else if st0.boardFrozen = true then .error .frozen
  else
    match (check_and_reset_week now st0).users uid with
    | none => .error .notFound
    | some u =>
      if now - (((check_and_reset_week now st0).rateLimit uid).getD 0) < RATE_LIMIT_SECONDS
      then .error .rateLimited
      else
        let st2 := place_mid st0 now uid
        let fr := is_free_placement_eligible st2 now uid
        let cost := if fr.1 = true then 0 else calculate_pixel_cost st2 x y
        if fr.1 = false ∧ u.credits < (cost : Int) then .error .insufficientCredits
        else
          let cm := place_commit st2 now uid x y color isAd fr.1 cost u
          .ok (update_dynamic_cap cm.1, cm.2)

/-! ## Undo (`undo_placement`, lines 697-786) -/

/-- The undo fee of `undo_placement` (line 743):
`int(original_cost * (UNDO_BASE_PERCENT + undo_count * UNDO_INCREMENT_PERCENT))`,
embedded as the exact truncation `c * (25 + 10k) / 100`.  Caution: the
source computes in binary doubles, and for some escalation counts `k >= 1`
the double `0.25 + k*0.10` rounds just below the decimal value, so the
source's fee can be one credit below this exact model (for example `k = 1`,
`c = 2700`: source 944, model 945).  For `k = 0` the two coincide at
`c / 4` for every cost below `2^53` (`0.25` and `c * 0.25` are exact
doubles).  Accordingly no claim theorem equates the fee with this formula
beyond escalation count 0: C1 and C2 relate balances to the fee actually
charged and returned in the response, and the remaining uses — the
sufficient-credit gate, fee 0 at recorded cost 0 (C10), and monotonicity in
the escalation count — hold for the source's floating-point fee as well.
Every concrete scenario below stays at `k = 0`, where the two coincide. -/
def undoCostFn (c k : Nat) : Nat :=
  c * (25 + 10 * k) / 100

/-- Python truthiness of the nullable `previous_color` column
(`if previous_color:`): `NULL` and the empty string are falsy. -/
def pyTruthy : Option String → Bool
  | none => false
  | some s => !(s = "")

/-- The user row as a successful undo leaves it (lines 749-754): the fee is
debited and `undo_escalation_count` incremented; `lifetime_paid_placements`
is not decremented. -/
def undoneUser (u : UserRec) (uc : Nat) : UserRec :=
  { u with credits := u.credits - (uc : Int), undoEsc := u.undoEsc + 1 }

/-- The committed mutation of `undo_placement` (lines 748-777): debit the
fee and bump `undo_escalation_count`, restore the cell's color/owner from
the record (or delete the row when the record holds no previous color), and
clear the record's `can_undo` flag.  The `UPDATE pixels` touches only
`color` and `owner_id`: `cost_level` and `is_ad` keep their current values. -/
def undo_commit (st : GState) (p : Placement) (pid uid : Nat) (u : UserRec)
    (uc : Nat) : GState :=
  { st with
    users := fun i => if i = uid then some (undoneUser u uc) else st.users i
    pixels := fun a b =>
      if a = p.x ∧ b = p.y then
        if pyTruthy p.prevColor = true then
          (st.pixels a b).map fun px =>
            { px with color := p.prevColor.getD "", ownerId := p.prevOwner }
        else none
      else st.pixels a b
    placements := st.placements.map fun e =>
      if e.1 = pid then (e.1, { e.2 with canUndo := false }) else e }

/-- Embeds `undo_placement` (lines 697-786), in source order: frozen gate, record
lookup, ownership, the `can_undo` flag, the `UNDO_WINDOW_SECONDS` window,
user lookup, fee, sufficient-credits gate, committed mutation.  No lazy week
reset happens here.  An `.error` leaves the state unchanged (rollback). -/
def undo_placement (st : GState) (now : Int) (pid uid : Nat) :
    Except ApiError (GState × UndoResult) :=
  if st.boardFrozen = true then .error .frozen
  else
    match placementLookup st pid with
    | none => .error .notFound
    | some p =>
      if ¬(p.userId = uid) then .error .notYourPlacement
      else if ¬(p.canUndo = true) then .error .cannotUndo
      else if UNDO_WINDOW_SECONDS < now - p.placedAt then .error .windowExpired
      else
        match st.users uid with
        | none => .error .notFound
        | some u =>
          let uc := undoCostFn p.cost u.undoEsc
          if u.credits < (uc : Int) then .error .insufficientCredits
          else .ok (undo_commit st p pid uid u uc,
                    { undoCost := uc, newBalance := u.credits - (uc : Int) })

/-! ## Reports (`report_pixel`, lines 788-835) -/

/-- The `INSERT INTO reports` of `report_pixel`: append the new report's
timestamp. -/
def report_append (st : GState) (now : Int) : GState :=
  { st with reports := st.reports ++ [now] }

/-- The freeze write of `report_pixel` (lines 816-820):
`UPDATE global_state SET value = '1' WHERE key = 'board_frozen'`. -/
def freezeBoard (st : GState) : GState :=
  { st with boardFrozen := true }

/-- Embeds `report_pixel` (lines 788-835): validate coordinates and user, append
the report, then freeze the board when the week's report count has reached
`REPORT_FREEZE_THRESHOLD` and the board is not already frozen.  Returns the
`board_frozen` flag of the response and the report count. -/
def report_pixel (st : GState) (now : Int) (uid x y : Nat) :
    Except ApiError (GState × Bool × Nat) :=
  if ¬(x < BOARD_SIZE ∧ y < BOARD_SIZE) then .error .invalidArgument
  else
    match st.users uid with
    | none => .error .notFound
    | some _ =>
      let st1 := report_append st now
      let cnt := count_week_reports st1
      if REPORT_FREEZE_THRESHOLD ≤ cnt ∧ st1.boardFrozen = false then
        .ok (freezeBoard st1, true, cnt)
      else
        .ok (st1, false, cnt)

/-! ## Frame lemmas -/

theorem update_dynamic_cap_frame (st : GState) :
    (update_dynamic_cap st).users = st.users ∧
    (update_dynamic_cap st).pixels = st.pixels ∧
    (update_dynamic_cap st).placements = st.placements ∧
    (update_dynamic_cap st).nextPlacementId = st.nextPlacementId ∧
    (update_dynamic_cap st).reports = st.reports ∧
    (update_dynamic_cap st).archives = st.archives ∧
    (update_dynamic_cap st).weekStart = st.weekStart ∧
    (update_dynamic_cap st).lastPlacement = st.lastPlacement ∧
    (update_dynamic_cap st).boardFrozen = st.boardFrozen ∧
    (update_dynamic_cap st).rateLimit = st.rateLimit := by
  simp only [update_dynamic_cap]
  split
  · split <;> exact ⟨rfl, rfl, rfl, rfl, rfl, rfl, rfl, rfl, rfl, rfl⟩
  · exact ⟨rfl, rfl, rfl, rfl, rfl, rfl, rfl, rfl, rfl, rfl⟩

theorem check_and_reset_week_not_crossed {now : Int} {st : GState}
    (h : now - st.weekStart < WEEK_SECONDS) : check_and_reset_week now st = st := by
  unfold check_and_reset_week
  rw [if_neg (not_le.mpr h)]

/-! ## Inversion lemmas -/

/-- Inversion for a committed placement: it passed every gate in source
order, and the resulting state and response are exactly the committed
mutation followed by the post-commit cap check. -/
theorem place_pixel_ok_inv {st0 : GState} {now : Int} {uid x y : Nat} {color : String}
    {isAd : Bool} {stR : GState} {r : PlaceResult}
    (h : place_pixel st0 now uid x y color isAd = .ok (stR, r)) :
    ∃ u,
      x < BOARD_SIZE ∧ y < BOARD_SIZE ∧ st0.boardFrozen = false ∧
      (check_and_reset_week now st0).users uid = some u ∧
      RATE_LIMIT_SECONDS ≤ now - (((check_and_reset_week now st0).rateLimit uid).getD 0) ∧
      ((is_free_placement_eligible (place_mid st0 now uid) now uid).1 = false →
        (calculate_pixel_cost (place_mid st0 now uid) x y : Int) ≤ u.credits) ∧
      stR = update_dynamic_cap
          (place_commit (place_mid st0 now uid) now uid x y color isAd
            (is_free_placement_eligible (place_mid st0 now uid) now uid).1
            (if (is_free_placement_eligible (place_mid st0 now uid) now uid).1 = true then 0
             else calculate_pixel_cost (place_mid st0 now uid) x y) u).1 ∧
      r = (place_commit (place_mid st0 now uid) now uid x y color isAd
            (is_free_placement_eligible (place_mid st0 now uid) now uid).1
            (if (is_free_placement_eligible (place_mid st0 now uid) now uid).1 = true then 0
             else calculate_pixel_cost (place_mid st0 now uid) x y) u).2 := by
  simp only [place_pixel] at h
  split at h
  · exact Except.noConfusion h
  split at h
  · exact Except.noConfusion h
  rename_i hxy hfrozen
  split at h
  · exact Except.noConfusion h
  rename_i u heq
  split at h
  · exact Except.noConfusion h
  rename_i hrate
  split at h
  case isTrue hfree =>
    split at h
    · exact Except.noConfusion h
    rename_i hcred
    rw [Except.ok.injEq, Prod.mk.injEq] at h
    rw [if_pos hfree]
    exact ⟨u, (not_not.mp hxy).1, (not_not.mp hxy).2, by simpa using hfrozen, heq,
      not_lt.mp hrate, fun hf => absurd hfree (by simp [hf]), h.1.symm, h.2.symm⟩
  case isFalse hfree =>
    split at h
    · exact Except.noConfusion h
    rename_i hcred
    rw [Except.ok.injEq, Prod.mk.injEq] at h
    rw [if_neg hfree]
    refine ⟨u, (not_not.mp hxy).1, (not_not.mp hxy).2, by simpa using hfrozen, heq,
      not_lt.mp hrate, ?_, h.1.symm, h.2.symm⟩
    intro hf
    by_contra hlt
    exact hcred ⟨hf, not_le.mp hlt⟩

/-- Inversion for a committed undo. -/
theorem undo_placement_ok_inv {st : GState} {now : Int} {pid uid : Nat} {stR : GState}
    {r : UndoResult} (h : undo_placement st now pid uid = .ok (stR, r)) :
    ∃ p u,
      st.boardFrozen = false ∧ placementLookup st pid = some p ∧ p.userId = uid ∧
      p.canUndo = true ∧ now - p.placedAt ≤ UNDO_WINDOW_SECONDS ∧
      st.users uid = some u ∧ (undoCostFn p.cost u.undoEsc : Int) ≤ u.credits ∧
      stR = undo_commit st p pid uid u (undoCostFn p.cost u.undoEsc) ∧
      r = { undoCost := undoCostFn p.cost u.undoEsc
            newBalance := u.credits - (undoCostFn p.cost u.undoEsc : Int) } := by
  simp only [undo_placement] at h
  split at h
  · exact Except.noConfusion h
  rename_i hfrozen
  split at h
  · exact Except.noConfusion h
  rename_i p hp
  split at h
  · exact Except.noConfusion h
  rename_i howner
  split at h
  · exact Except.noConfusion h
  rename_i hcan
  split at h
  · exact Except.noConfusion h
  rename_i hwindow
  split at h
  · exact Except.noConfusion h
  rename_i u husr
  split at h
  · exact Except.noConfusion h
  rename_i hcred
  rw [Except.ok.injEq, Prod.mk.injEq] at h
  exact ⟨p, u, by simpa using hfrozen, hp, not_not.mp howner, by simpa using hcan,
    not_lt.mp hwindow, husr, not_lt.mp hcred, h.1.symm, h.2.symm⟩

/-- Forward evaluation for an undo whose gates all pass. -/
theorem undo_placement_eq_ok {st : GState} {now : Int} {pid uid : Nat} {p : Placement}
    {u : UserRec} (hf : st.boardFrozen = false) (hp : placementLookup st pid = some p)
    (hown : p.userId = uid) (hc : p.canUndo = true)
    (hw : now - p.placedAt ≤ UNDO_WINDOW_SECONDS) (husr : st.users uid = some u)
    (hcr : (undoCostFn p.cost u.undoEsc : Int) ≤ u.credits) :
    undo_placement st now pid uid =
      .ok (undo_commit st p pid uid u (undoCostFn p.cost u.undoEsc),
           { undoCost := undoCostFn p.cost u.undoEsc
             newBalance := u.credits - (undoCostFn p.cost u.undoEsc : Int) }) := by
  simp only [undo_placement, hf, hp, husr, hown, hc, Bool.false_eq_true, if_false,
    not_true, not_false_eq_true, if_neg (not_lt.mpr hw), if_neg (not_lt.mpr hcr)]

/-! ## Lookup and record-field lemmas -/

theorem find?_map_of_keys {α β : Type} [DecidableEq α] (l : List (α × β))
    (f : α × β → α × β) (hf : ∀ e, (f e).1 = e.1) (q : α) :
    (l.map f).find? (fun e => e.1 = q) = (l.find? (fun e => e.1 = q)).map f := by
  induction l with
  | nil => rfl
  | cons a l ih =>
    simp only [List.map_cons, List.find?_cons, hf a]
    cases hd : (decide (a.1 = q)) with
    | true => rfl
    | false => exact ih

theorem find?_append_fresh (l : List (Nat × Placement)) (n : Nat) (e : Placement)
    (hl : l.all (fun en => en.1 < n) = true) :
    (l ++ [(n, e)]).find? (fun en => en.1 = n) = some (n, e) := by
  induction l with
  | nil => simp [List.find?]
  | cons a l ih =>
    simp only [List.all_cons, Bool.and_eq_true] at hl
    have ha : (decide (a.1 = n)) = false := by
      simp only [decide_eq_false_iff_not]
      exact Nat.ne_of_lt (by simpa using hl.1)
    simp only [List.cons_append, List.find?_cons, ha]
    exact ih hl.2

/-- A successful undo rewrites exactly the targeted record's `can_undo`
flag in the log. -/
theorem placementLookup_undo_commit (st : GState) (p : Placement) (pid uid : Nat)
    (u : UserRec) (uc : Nat) (q : Nat) :
    placementLookup (undo_commit st p pid uid u uc) q =
      (placementLookup st q).map fun r => if q = pid then { r with canUndo := false } else r := by
  unfold placementLookup undo_commit
  rw [show (({ st with
      users := fun i => if i = uid then some (undoneUser u uc) else st.users i
      pixels := fun a b =>
        if a = p.x ∧ b = p.y then
          if pyTruthy p.prevColor = true then
            (st.pixels a b).map fun px =>
              { px with color := p.prevColor.getD "", ownerId := p.prevOwner }
          else none
        else st.pixels a b
      placements := st.placements.map fun e =>
        if e.1 = pid then (e.1, { e.2 with canUndo := false }) else e } : GState).placements =
      st.placements.map fun e =>
        if e.1 = pid then (e.1, { e.2 with canUndo := false }) else e) from rfl]
  rw [find?_map_of_keys _ _ (fun e => by dsimp only; split <;> rfl)]
  cases hfind : st.placements.find? (fun e => e.1 = q) with
  | none => rfl
  | some e =>
    have he : e.1 = q := by simpa using List.find?_some hfind
    show some ((if e.1 = pid then (e.1, { e.2 with canUndo := false }) else e).2) =
      some (if q = pid then { e.2 with canUndo := false } else e.2)
    rw [he]
    congr 1
    split <;> rfl

theorem violationBump_fields (u : UserRec) (a b : Bool) :
    (violationBump u a b).credits = u.credits ∧
    (violationBump u a b).undoEsc = u.undoEsc ∧
    (violationBump u a b).lifetimePaid = u.lifetimePaid := by
  unfold violationBump
  split <;> exact ⟨rfl, rfl, rfl⟩

theorem paidDebit_fields (u : UserRec) (f : Bool) (c : Nat) :
    (paidDebit u f c).credits = (if f = true then u.credits else u.credits - (c : Int)) ∧
    (paidDebit u f c).undoEsc = u.undoEsc ∧
    (paidDebit u f c).lifetimePaid = (if f = true then u.lifetimePaid else u.lifetimePaid + 1) := by
  unfold paidDebit
  by_cases hf : f = true <;> simp [hf]

theorem placedUser_fields (st2 : GState) (x y : Nat) (isAd isFree : Bool) (cost : Nat)
    (u : UserRec) :
    (placedUser st2 x y isAd isFree cost u).credits =
        (if isFree = true then u.credits else u.credits - (cost : Int)) ∧
    (placedUser st2 x y isAd isFree cost u).undoEsc = u.undoEsc ∧
    (placedUser st2 x y isAd isFree cost u).lifetimePaid =
        (if isFree = true then u.lifetimePaid else u.lifetimePaid + 1) := by
  unfold placedUser
  obtain ⟨h1, h2, h3⟩ := paidDebit_fields (violationBump u (cellIsAd st2 x y) isAd) isFree cost
  obtain ⟨g1, g2, g3⟩ := violationBump_fields u (cellIsAd st2 x y) isAd
  rw [h1, h2, h3, g1, g2, g3]
  exact ⟨rfl, rfl, rfl⟩

/-! ## Concrete states for witnesses and counterexamples

The cap is kept at `LOWER_CAP_CREDITS` in these small states so that the
post-commit `update_dynamic_cap` short-circuits before its whole-board count
during kernel evaluation; the cap plays no role in any scenario below
(every computed cost is far beneath it). -/

/-- One user (id 1), empty board, week and clock started at 0. -/
def baseState (credits : Int) (lifetimePaid undoEsc : Nat) : GState :=
  { users := fun i =>
      if i = 1 then
        some { credits := credits, lifetimePaid := lifetimePaid, undoEsc := undoEsc
               adViolations := 0 }
      else none
    pixels := fun _ _ => none
    placements := []
    nextPlacementId := 1
    reports := []
    archives := []
    weekStart := 0
    lastPlacement := 0
    currentCap := LOWER_CAP_CREDITS
    boardFrozen := false
    rateLimit := fun _ => none }

/-- A placement-log record by user 1 on cell (0,0) with no previous state. -/
def mkRecord (cost : Nat) (canUndo : Bool) : Placement :=
  { userId := 1, x := 0, y := 0, color := "#112233", cost := cost
    wasFree := decide (cost = 0), isAd := false, canUndo := canUndo
    prevColor := none, prevOwner := none, placedAt := 0 }

/-- Variant of `baseState` with one record (id 1) already in the placement log. -/
def stateWithRecord (credits : Int) (cost : Nat) (canUndo : Bool) : GState :=
  { baseState credits 0 0 with
    placements := [(1, mkRecord cost canUndo)]
    nextPlacementId := 2 }

/-- Extract the state of a successful operation (default for errors). -/
def okSt {α : Type} (d : GState) : Except ApiError (GState × α) → GState
  | .ok (s, _) => s
  | .error _ => d

/-- Extract the response of a successful operation (default for errors). -/
def okRes {α : Type} (d : α) : Except ApiError (GState × α) → α
  | .ok (_, r) => r
  | .error _ => d

/-! ## C4 — the pricing function -/

/-- The cost formula in the specification's own phrasing: base cost 1000
plus the truncation of `level * 1000 / 1000`, a truncating 10% discount when
the cell carries an ad, then the clamp `min(computed, cap)`. -/
def specCost (level : Nat) (ad : Bool) (cap : Nat) : Nat :=
  min (if ad = true then (1000 + level * 1000 / 1000) * 9 / 10
       else 1000 + level * 1000 / 1000) cap

/-- C4: for every cell state (level `L`, ad flag `A`) and cap `C`, the
computed placement cost is `min` of (base 1000 + trunc(L*1000/1000), with a
truncating 10% discount when `A`) and `C`; in particular it never exceeds
the cap.  `calculate_pixel_cost` is a pure function of the state — the
embedding gives it no way to mutate the cell it reads. -/
theorem C4_pixel_cost_formula (st : GState) (x y : Nat) :
    calculate_pixel_cost st x y =
      specCost (cellLevel st x y) (cellIsAd st x y) st.currentCap ∧
    calculate_pixel_cost st x y ≤ st.currentCap := by
  constructor
  · rfl
  · exact Nat.min_le_right _ _

/-! ## C5 — free-placement eligibility -/

/-- The inactivity condition as the code evaluates it: at least
`INACTIVITY_THRESHOLD_SECONDS` since the last global placement (the source
uses `>=`, not a strict `>`), and the user's lifetime paid count at most
`FREE_ELIGIBILITY_MAX_PAID`. -/
def inactivityCond (st : GState) (now : Int) (u : UserRec) : Prop :=
  INACTIVITY_THRESHOLD_SECONDS ≤ now - st.lastPlacement ∧
    u.lifetimePaid ≤ FREE_ELIGIBILITY_MAX_PAID

/-- The end-of-cycle condition: strictly less than
`END_OF_WEEK_WINDOW_SECONDS` remaining until `week_start + 7 days`, same
per-user ceiling. -/
def endOfWeekCond (st : GState) (now : Int) (u : UserRec) : Prop :=
  st.weekStart + WEEK_SECONDS - now < END_OF_WEEK_WINDOW_SECONDS ∧
    u.lifetimePaid ≤ FREE_ELIGIBILITY_MAX_PAID

instance (st : GState) (now : Int) (u : UserRec) : Decidable (inactivityCond st now u) := by
  unfold inactivityCond
  infer_instance

instance (st : GState) (now : Int) (u : UserRec) : Decidable (endOfWeekCond st now u) := by
  unfold endOfWeekCond
  infer_instance

/-- C5 (amended): for an existing user, the placement is free with reason
"inactivity" exactly when the time since the global last placement is **at
least** 1800 seconds (the claim's strict "exceeds" is wrong at the boundary)
and the paid-count ceiling holds; otherwise free with reason "end_of_week"
exactly when under 21600 seconds remain and the ceiling holds; otherwise
paid.  The triggers are evaluated in source order, first match winning. -/
theorem C5_free_eligibility_amended (st : GState) (now : Int) (uid : Nat) (u : UserRec)
    (hu : st.users uid = some u) :
    (is_free_placement_eligible st now uid = (true, some .inactivity) ↔
      inactivityCond st now u) ∧
    (is_free_placement_eligible st now uid = (true, some .endOfWeek) ↔
      (¬inactivityCond st now u ∧ endOfWeekCond st now u)) ∧
    (is_free_placement_eligible st now uid = (false, none) ↔
      (¬inactivityCond st now u ∧ ¬endOfWeekCond st now u)) := by
  have hpaid : userPaidOk st uid = decide (u.lifetimePaid ≤ FREE_ELIGIBILITY_MAX_PAID) := by
    unfold userPaidOk
    rw [hu]
  unfold is_free_placement_eligible inactivityCond endOfWeekCond
  rw [hpaid]
  by_cases h1 : INACTIVITY_THRESHOLD_SECONDS ≤ now - st.lastPlacement <;>
    by_cases h2 : u.lifetimePaid ≤ FREE_ELIGIBILITY_MAX_PAID <;>
    by_cases h3 : st.weekStart + WEEK_SECONDS - now < END_OF_WEEK_WINDOW_SECONDS <;>
    simp [h1, h2, h3]

/-- C5 witness: at 1799 seconds of inactivity with 603001 seconds left in
the week, user 1 (0 paid placements) gets no free placement. -/
theorem C5_free_eligibility_amended_witness :
    is_free_placement_eligible (baseState 0 0 0) 1799 1 = (false, none) := by
  have h := C5_free_eligibility_amended (baseState 0 0 0) 1799 1
    { credits := 0, lifetimePaid := 0, undoEsc := 0, adViolations := 0 } rfl
  exact h.2.2.mpr (by decide)

/-- C5 counterexample: at exactly 1800 seconds of inactivity (which does
not *exceed* 1800) and far from the end of the week, the claim says the
placement is paid, but the code grants a free placement with reason
"inactivity" (`inactive_seconds >= INACTIVITY_THRESHOLD_SECONDS`). -/
theorem C5_counterexample :
    is_free_placement_eligible (baseState 0 0 0) 1800 1 = (true, some .inactivity) ∧
    ¬(1800 - (baseState 0 0 0).lastPlacement > INACTIVITY_THRESHOLD_SECONDS) ∧
    ¬((baseState 0 0 0).weekStart + WEEK_SECONDS - 1800 < END_OF_WEEK_WINDOW_SECONDS) := by
  refine ⟨by decide, by decide, by decide⟩

/-! ## C7 — double undo is rejected -/

/-- C7: an undo request against a record whose `can_undo` flag is already
cleared can never commit; in particular, when the board is not frozen and
the requester owns the record the rejection is exactly the 400
"Cannot undo this placement" outcome.  Every rejection is an `.error`, and
an `.error` carries no successor state: the transaction rolls back, so
balance, undo-escalation counter, cell and record are all untouched and
nothing is charged, refunded or re-applied. -/
theorem C7_double_undo_rejected (st : GState) (now : Int) (pid uid : Nat) (p : Placement)
    (hp : placementLookup st pid = some p) (hundone : p.canUndo = false) :
    (undo_placement st now pid uid).isOk = false ∧
    (st.boardFrozen = false → p.userId = uid →
      undo_placement st now pid uid = .error .cannotUndo) := by
  constructor
  · cases hres : undo_placement st now pid uid with
    | error e => rfl
    | ok pr =>
      obtain ⟨p', u, _, hp', _, hcan, _⟩ :=
        undo_placement_ok_inv
          (show undo_placement st now pid uid = .ok (pr.1, pr.2) by rw [hres])
      rw [hp] at hp'
      obtain rfl : p = p' := Option.some.inj hp'
      rw [hundone] at hcan
      exact Bool.noConfusion hcan
  · intro hf hown
    simp [undo_placement, hf, hp, hown, hundone]

/-- C7 witness: a concrete state holding an already-undone record
(id 1, `can_undo = 0`) rejects a second undo by its owner. -/
theorem C7_double_undo_rejected_witness :
    (undo_placement (stateWithRecord 0 1000 false) 10 1 1).isOk = false ∧
    ((stateWithRecord 0 1000 false).boardFrozen = false →
      (mkRecord 1000 false).userId = 1 →
      undo_placement (stateWithRecord 0 1000 false) 10 1 1 = .error .cannotUndo) :=
  C7_double_undo_rejected (stateWithRecord 0 1000 false) 10 1 1 (mkRecord 1000 false)
    (by decide) (by decide)

/-! ## C10 — undoing a free placement -/

/-- C10: a record logged with cost 0 (a free placement) can be undone by
its owner within the window on an unfrozen board whenever the balance is
non-negative — even at exactly 0 — the fee charged is exactly 0, and the
undo-escalation counter still increments by one, which raises the fee
fraction `(25 + 10*k)/100` of every later undo of a paid placement in the
same cycle (monotonicity conjunct). -/
theorem C10_free_undo (st : GState) (now : Int) (pid uid : Nat) (p : Placement) (u : UserRec)
    (hfrozen : st.boardFrozen = false)
    (hp : placementLookup st pid = some p)
    (hcost : p.cost = 0)
    (hown : p.userId = uid)
    (hcan : p.canUndo = true)
    (hw : now - p.placedAt ≤ UNDO_WINDOW_SECONDS)
    (hu : st.users uid = some u)
    (hbal : 0 ≤ u.credits) :
    ∃ st' r, undo_placement st now pid uid = .ok (st', r) ∧
      r.undoCost = 0 ∧
      st'.users uid = some { u with undoEsc := u.undoEsc + 1 } ∧
      ∀ c : Nat, undoCostFn c u.undoEsc ≤ undoCostFn c (u.undoEsc + 1) := by
  have hc0 : undoCostFn p.cost u.undoEsc = 0 := by
    rw [hcost]
    simp [undoCostFn]
  have hok := undo_placement_eq_ok hfrozen hp hown hcan hw hu
    (by rw [hc0]; exact_mod_cast hbal)
  refine ⟨_, _, hok, by rw [hc0], ?_, ?_⟩
  · show (if uid = uid then some (undoneUser u (undoCostFn p.cost u.undoEsc))
      else st.users uid) = some { u with undoEsc := u.undoEsc + 1 }
    rw [if_pos rfl, hc0]
    unfold undoneUser
    norm_num
  · intro c
    exact Nat.div_le_div_right (Nat.mul_le_mul_left c (by omega))

/-- C10 witness: user 1 with balance exactly 0 undoes the free record
(cost 0) successfully; the fee is 0 and the counter goes from 0 to 1. -/
theorem C10_free_undo_witness :
    ∃ st' r, undo_placement (stateWithRecord 0 0 true) 10 1 1 = .ok (st', r) ∧
      r.undoCost = 0 ∧
      st'.users 1 = some { credits := 0, lifetimePaid := 0, undoEsc := 1, adViolations := 0 } ∧
      ∀ c : Nat, undoCostFn c 0 ≤ undoCostFn c 1 :=
  C10_free_undo (stateWithRecord 0 0 true) 10 1 1 (mkRecord 0 true)
    { credits := 0, lifetimePaid := 0, undoEsc := 0, adViolations := 0 }
    (by decide) (by decide) (by decide) (by decide) (by decide) (by decide) (by decide)
    (by decide)

/-! ## Projection lemmas for the committed mutations -/

theorem place_mid_frame (st0 : GState) (now : Int) (uid : Nat) :
    (place_mid st0 now uid).users = (check_and_reset_week now st0).users ∧
    (place_mid st0 now uid).pixels = (check_and_reset_week now st0).pixels ∧
    (place_mid st0 now uid).placements = (check_and_reset_week now st0).placements ∧
    (place_mid st0 now uid).nextPlacementId = (check_and_reset_week now st0).nextPlacementId ∧
    (place_mid st0 now uid).weekStart = (check_and_reset_week now st0).weekStart ∧
    (place_mid st0 now uid).boardFrozen = (check_and_reset_week now st0).boardFrozen :=
  ⟨rfl, rfl, rfl, rfl, rfl, rfl⟩

theorem place_commit_users (st2 : GState) (now : Int) (uid x y : Nat) (color : String)
    (isAd isFree : Bool) (cost : Nat) (u : UserRec) (i : Nat) :
    (place_commit st2 now uid x y color isAd isFree cost u).1.users i =
      if i = uid then some (placedUser st2 x y isAd isFree cost u) else st2.users i := rfl

theorem place_commit_pixels (st2 : GState) (now : Int) (uid x y : Nat) (color : String)
    (isAd isFree : Bool) (cost : Nat) (u : UserRec) (a b : Nat) :
    (place_commit st2 now uid x y color isAd isFree cost u).1.pixels a b =
      if a = x ∧ b = y then
        some { color := color, costLevel := cellLevel st2 x y + COST_INCREMENT_CREDITS
               ownerId := some uid, isAd := isAd }
      else st2.pixels a b := rfl

theorem place_commit_placements (st2 : GState) (now : Int) (uid x y : Nat) (color : String)
    (isAd isFree : Bool) (cost : Nat) (u : UserRec) :
    (place_commit st2 now uid x y color isAd isFree cost u).1.placements =
      st2.placements ++
        [(st2.nextPlacementId, placedEntry st2 now uid x y color isAd isFree cost)] := rfl

theorem place_commit_state_frame (st2 : GState) (now : Int) (uid x y : Nat) (color : String)
    (isAd isFree : Bool) (cost : Nat) (u : UserRec) :
    (place_commit st2 now uid x y color isAd isFree cost u).1.nextPlacementId =
        st2.nextPlacementId + 1 ∧
    (place_commit st2 now uid x y color isAd isFree cost u).1.weekStart = st2.weekStart ∧
    (place_commit st2 now uid x y color isAd isFree cost u).1.lastPlacement = now ∧
    (place_commit st2 now uid x y color isAd isFree cost u).1.boardFrozen = st2.boardFrozen ∧
    (place_commit st2 now uid x y color isAd isFree cost u).1.reports = st2.reports :=
  ⟨rfl, rfl, rfl, rfl, rfl⟩

theorem place_commit_snd (st2 : GState) (now : Int) (uid x y : Nat) (color : String)
    (isAd isFree : Bool) (cost : Nat) (u : UserRec) :
    (place_commit st2 now uid x y color isAd isFree cost u).2 =
      { cost := cost, wasFree := isFree
        newBalance := if isFree = true then u.credits else u.credits - (cost : Int)
        placementId := st2.nextPlacementId } := rfl

theorem undo_commit_users (st : GState) (p : Placement) (pid uid : Nat) (u : UserRec)
    (uc : Nat) (i : Nat) :
    (undo_commit st p pid uid u uc).users i =
      if i = uid then some (undoneUser u uc) else st.users i := rfl

theorem undo_commit_pixels (st : GState) (p : Placement) (pid uid : Nat) (u : UserRec)
    (uc : Nat) (a b : Nat) :
    (undo_commit st p pid uid u uc).pixels a b =
      if a = p.x ∧ b = p.y then
        if pyTruthy p.prevColor = true then
          (st.pixels a b).map fun px =>
            { px with color := p.prevColor.getD "", ownerId := p.prevOwner }
        else none
      else st.pixels a b := rfl

theorem undo_commit_state_frame (st : GState) (p : Placement) (pid uid : Nat) (u : UserRec)
    (uc : Nat) :
    (undo_commit st p pid uid u uc).nextPlacementId = st.nextPlacementId ∧
    (undo_commit st p pid uid u uc).weekStart = st.weekStart ∧
    (undo_commit st p pid uid u uc).lastPlacement = st.lastPlacement ∧
    (undo_commit st p pid uid u uc).boardFrozen = st.boardFrozen ∧
    (undo_commit st p pid uid u uc).currentCap = st.currentCap ∧
    (undo_commit st p pid uid u uc).reports = st.reports ∧
    (undo_commit st p pid uid u uc).archives = st.archives :=
  ⟨rfl, rfl, rfl, rfl, rfl, rfl, rfl⟩

/-- The weekly reset never changes any user's credit balance. -/
theorem check_and_reset_week_users_credits (now : Int) (st : GState) (i : Nat) :
    ((check_and_reset_week now st).users i).map UserRec.credits =
      (st.users i).map UserRec.credits := by
  unfold check_and_reset_week
  split
  · show ((st.users i).map _).map _ = _
    cases st.users i <;> rfl
  · rfl

/-! ## C6 — report threshold and the freeze gate -/

/-- C6: a committed report leaves the freeze flag equal to "was already
frozen, or the week's report count (including this report) has reached
`REPORT_FREEZE_THRESHOLD`" — so the flag is set exactly when the count
first reaches 2500, a count strictly below leaves the board unfrozen, and a
report never clears the flag (only `check_and_reset_week` does, see C8).
While the flag is set, every well-formed placement attempt is rejected with
the 403 frozen outcome before the user's balance is even read. -/
theorem C6_freeze_gate (st : GState) (now : Int) (uid x y : Nat) (st' : GState)
    (fb : Bool) (c : Nat)
    (h : report_pixel st now uid x y = .ok (st', fb, c)) :
    st'.boardFrozen =
        (st.boardFrozen || decide (REPORT_FREEZE_THRESHOLD ≤ count_week_reports st')) ∧
    (st.boardFrozen = true → st'.boardFrozen = true) ∧
    c = count_week_reports st' ∧
    (∀ now2 uid2 x2 y2 color2 ad2, st'.boardFrozen = true →
      x2 < BOARD_SIZE → y2 < BOARD_SIZE →
      place_pixel st' now2 uid2 x2 y2 color2 ad2 = .error .frozen) := by
  have hreject : ∀ s : GState, ∀ now2 uid2 x2 y2 color2 ad2, s.boardFrozen = true →
      x2 < BOARD_SIZE → y2 < BOARD_SIZE →
      place_pixel s now2 uid2 x2 y2 color2 ad2 = .error .frozen := by
    intro s now2 uid2 x2 y2 color2 ad2 hfz hx2 hy2
    simp [place_pixel, hfz, hx2, hy2]
  simp only [report_pixel] at h
  split at h
  · exact Except.noConfusion h
  split at h
  · exact Except.noConfusion h
  split at h
  · rename_i hcond
    simp only [Except.ok.injEq, Prod.mk.injEq] at h
    obtain ⟨hst, hfb, hc⟩ := h
    subst hst
    refine ⟨?_, fun _ => rfl, hc.symm, hreject _⟩
    show true = (st.boardFrozen ||
      decide (REPORT_FREEZE_THRESHOLD ≤ count_week_reports (freezeBoard (report_append st now))))
    rw [show count_week_reports (freezeBoard (report_append st now)) =
          count_week_reports (report_append st now) from rfl,
        decide_eq_true hcond.1, Bool.or_true]
  · rename_i hcond
    simp only [Except.ok.injEq, Prod.mk.injEq] at h
    obtain ⟨hst, hfb, hc⟩ := h
    subst hst
    refine ⟨?_, fun hb => hb, hc.symm, hreject _⟩
    show (report_append st now).boardFrozen =
      (st.boardFrozen || decide (REPORT_FREEZE_THRESHOLD ≤ count_week_reports (report_append st now)))
    rw [show (report_append st now).boardFrozen = st.boardFrozen from rfl]
    by_cases hle : REPORT_FREEZE_THRESHOLD ≤ count_week_reports (report_append st now)
    · cases hbool : st.boardFrozen with
      | false => exact absurd ⟨hle, hbool⟩ hcond
      | true => rw [Bool.true_or]
    · rw [decide_eq_false hle, Bool.or_false]

/-- C6 witness: a single report (count 1, far below 2500) on a fresh board
commits and leaves the board unfrozen. -/
theorem C6_freeze_gate_witness :
    (report_append (baseState 0 0 0) 5).boardFrozen =
        ((baseState 0 0 0).boardFrozen ||
          decide (REPORT_FREEZE_THRESHOLD ≤
            count_week_reports (report_append (baseState 0 0 0) 5))) ∧
    ((baseState 0 0 0).boardFrozen = true →
      (report_append (baseState 0 0 0) 5).boardFrozen = true) ∧
    1 = count_week_reports (report_append (baseState 0 0 0) 5) ∧
    (∀ now2 uid2 x2 y2 color2 ad2,
      (report_append (baseState 0 0 0) 5).boardFrozen = true →
      x2 < BOARD_SIZE → y2 < BOARD_SIZE →
      place_pixel (report_append (baseState 0 0 0) 5) now2 uid2 x2 y2 color2 ad2 =
        .error .frozen) :=
  C6_freeze_gate (baseState 0 0 0) 5 1 0 0 _ false 1 rfl

/-! ## C8 — the weekly cycle reset -/

/-- C8: when at least a week has passed, `check_and_reset_week` appends
exactly one archive entry (snapshot taken from the pre-reset board) and
resets exactly the per-cycle state — every cell keeps its color, owner and
ad flag but its escalation level becomes 0; every user keeps credits,
lifetime paid count and violation count but the undo-escalation counter
becomes 0; the cap returns to its initial value, the freeze flag clears,
and the cycle start becomes `now` — while the placement log, the report
log, the next placement id and the last-placement time are untouched.  When
no boundary was crossed the state is returned unchanged. -/
theorem C8_cycle_reset (st : GState) (now : Int) :
    (WEEK_SECONDS ≤ now - st.weekStart →
      (check_and_reset_week now st).archives =
          st.archives ++ [create_archive_snapshot st st.weekStart now] ∧
      (∀ a b, (check_and_reset_week now st).pixels a b =
          (st.pixels a b).map fun p => { p with costLevel := 0 }) ∧
      (∀ i, (check_and_reset_week now st).users i =
          (st.users i).map fun u => { u with undoEsc := 0 }) ∧
      (check_and_reset_week now st).currentCap = INITIAL_CAP_CREDITS ∧
      (check_and_reset_week now st).boardFrozen = false ∧
      (check_and_reset_week now st).weekStart = now ∧
      (check_and_reset_week now st).lastPlacement = st.lastPlacement ∧
      (check_and_reset_week now st).placements = st.placements ∧
      (check_and_reset_week now st).reports = st.reports ∧
      (check_and_reset_week now st).nextPlacementId = st.nextPlacementId) ∧
    (now - st.weekStart < WEEK_SECONDS → check_and_reset_week now st = st) := by
  constructor
  · intro hcross
    unfold check_and_reset_week
    rw [if_pos hcross]
    exact ⟨rfl, fun a b => rfl, fun i => rfl, rfl, rfl, rfl, rfl, rfl, rfl, rfl⟩
  · exact check_and_reset_week_not_crossed

/-- C8 witness: a crossing at `now = 604800` resets the week start and
zeroes user 1's undo-escalation counter (5 before, 0 after) while an early
`now = 10` changes nothing. -/
theorem C8_cycle_reset_witness :
    ((check_and_reset_week 604800 (baseState 7 3 5)).weekStart = 604800 ∧
     (check_and_reset_week 604800 (baseState 7 3 5)).users 1 =
        ((baseState 7 3 5).users 1).map fun u => { u with undoEsc := 0 }) ∧
    check_and_reset_week 10 (baseState 7 3 5) = baseState 7 3 5 := by
  have h1 := (C8_cycle_reset (baseState 7 3 5) 604800).1 (by decide)
  have h2 := (C8_cycle_reset (baseState 7 3 5) 10).2 (by decide)
  exact ⟨⟨h1.2.2.2.2.2.1, h1.2.2.1 1⟩, h2⟩

/-! ## C9 — balances never go negative -/

/-- C9: across a committed placement and a committed undo (each rejected
without debiting when the balance is short — that is what the 402 paths of
both handlers enforce, and an `.error` leaves the state untouched), every
user whose credit balance was non-negative before the operation still has a
non-negative balance afterwards. -/
theorem C9_balance_nonneg (st stP stU : GState) (now nowU : Int) (uid x y : Nat)
    (color : String) (ad : Bool) (pid uidU : Nat) (rP : PlaceResult) (rU : UndoResult)
    (hP : place_pixel st now uid x y color ad = .ok (stP, rP))
    (hU : undo_placement st nowU pid uidU = .ok (stU, rU)) :
    (∀ i u u', st.users i = some u → stP.users i = some u' →
        0 ≤ u.credits → 0 ≤ u'.credits) ∧
    (∀ i u u', st.users i = some u → stU.users i = some u' →
        0 ≤ u.credits → 0 ≤ u'.credits) := by
  constructor
  · intro i u u' hu hu' hnn
    obtain ⟨u0, hx, hy, hfz, hu0, hrate, hcredOk, hstP, hrP⟩ := place_pixel_ok_inv hP
    subst hstP
    rw [(update_dynamic_cap_frame _).1, place_commit_users] at hu'
    have hmap := check_and_reset_week_users_credits now st i
    rw [hu] at hmap
    by_cases hi : i = uid
    · subst hi
      rw [if_pos rfl] at hu'
      have hu'eq : placedUser (place_mid st now i) x y ad
          (is_free_placement_eligible (place_mid st now i) now i).1
          (if (is_free_placement_eligible (place_mid st now i) now i).1 = true then 0
           else calculate_pixel_cost (place_mid st now i) x y) u0 = u' :=
        Option.some.inj hu'
      rw [hu0] at hmap
      have hcred0 : u0.credits = u.credits := by simpa using hmap
      obtain ⟨hc, _, _⟩ := placedUser_fields (place_mid st now i) x y ad
        (is_free_placement_eligible (place_mid st now i) now i).1
        (if (is_free_placement_eligible (place_mid st now i) now i).1 = true then 0
         else calculate_pixel_cost (place_mid st now i) x y) u0
      rw [← hu'eq, hc]
      by_cases hfr : (is_free_placement_eligible (place_mid st now i) now i).1 = true
      · rw [if_pos hfr, hcred0]
        exact hnn
      · have hfr' : (is_free_placement_eligible (place_mid st now i) now i).1 = false :=
          Bool.not_eq_true _ |>.mp hfr
        have hle := hcredOk hfr'
        rw [if_neg hfr, if_neg hfr, hcred0]
        rw [hcred0] at hle
        omega
    · rw [if_neg hi] at hu'
      have hpm : (place_mid st now uid).users i = (check_and_reset_week now st).users i := rfl
      rw [hpm] at hu'
      rw [hu'] at hmap
      have : u'.credits = u.credits := by simpa using hmap
      rw [this]
      exact hnn
  · intro i u u' hu hu' hnn
    obtain ⟨p, u2, hfz, hp, hown, hcan, hw, husr, hcred, hstU, hrU⟩ := undo_placement_ok_inv hU
    subst hstU
    rw [undo_commit_users] at hu'
    by_cases hi : i = uidU
    · subst hi
      rw [if_pos rfl] at hu'
      rw [husr] at hu
      have hu2 : u = u2 := (Option.some.inj hu).symm
      subst hu2
      have hu'eq : undoneUser u (undoCostFn p.cost u.undoEsc) = u' := Option.some.inj hu'
      rw [← hu'eq]
      show 0 ≤ u.credits - (undoCostFn p.cost u.undoEsc : Int)
      omega
    · rw [if_neg hi, hu] at hu'
      obtain rfl : u = u' := Option.some.inj hu'
      exact hnn

/-- C9 witness: from a state where user 1 has exactly 1000 credits, a paid
placement costing 1000 leaves balance 0, and an undo of the cost-0 record
leaves balance 1000; both stay non-negative. -/
theorem C9_balance_nonneg_witness :
    ((0 : Int) ≤ (UserRec.mk 0 1 0 0).credits) ∧
    ((0 : Int) ≤ (UserRec.mk 1000 0 1 0).credits) := by
  have h := C9_balance_nonneg (stateWithRecord 1000 0 true) _ _ 10 10 1 0 0 "#112233"
    false 1 1 _ _ rfl rfl
  exact ⟨h.1 1 (UserRec.mk 1000 0 0 0) (UserRec.mk 0 1 0 0) rfl rfl (by decide),
         h.2 1 (UserRec.mk 1000 0 0 0) (UserRec.mk 1000 0 1 0) rfl rfl (by decide)⟩

/-! ## C2 — what an undo actually reverses -/

/-- C2 (amended): a successful undo restores the cell to the previous
color/owner captured in the placement record (or deletes the cell entirely
when the record holds no previous color, i.e. the placement was the cell's
first write), marks the record as undone, debits exactly the fee it returns
in the response (`r.undoCost` — stated against the returned fee, not
against any fee formula, so the statement is independent of how the
floating-point fee rounds) and increments the undo-escalation counter —
but, contrary to the claim, it does **not** decrement the cell's escalation
level (the restore writes only `color` and `owner_id`, leaving `cost_level`
— and `is_ad` — at their post-placement values) and it does **not**
decrement the user's `lifetime_paid_placements` (visible in the explicit
user record of the conclusion, whose `lifetimePaid` field is unchanged). -/
theorem C2_undo_effect_amended (st : GState) (now : Int) (pid uid : Nat)
    (st' : GState) (r : UndoResult)
    (h : undo_placement st now pid uid = .ok (st', r)) :
    ∃ p u, placementLookup st pid = some p ∧ st.users uid = some u ∧
      p.userId = uid ∧ p.canUndo = true ∧
      placementLookup st' pid = some { p with canUndo := false } ∧
      (pyTruthy p.prevColor = true →
        st'.pixels p.x p.y = (st.pixels p.x p.y).map fun px =>
          { px with color := p.prevColor.getD "", ownerId := p.prevOwner }) ∧
      (pyTruthy p.prevColor = false → st'.pixels p.x p.y = none) ∧
      (∀ px px', st.pixels p.x p.y = some px → st'.pixels p.x p.y = some px' →
        px'.costLevel = px.costLevel ∧ px'.isAd = px.isAd) ∧
      st'.users uid = some { credits := u.credits - (r.undoCost : Int)
                             lifetimePaid := u.lifetimePaid
                             undoEsc := u.undoEsc + 1
                             adViolations := u.adViolations } ∧
      (∀ a b, ¬(a = p.x ∧ b = p.y) → st'.pixels a b = st.pixels a b) := by
  obtain ⟨p, u, hfz, hp, hown, hcan, hw, husr, hcred, hstU, hrU⟩ := undo_placement_ok_inv h
  subst hstU
  refine ⟨p, u, hp, husr, hown, hcan, ?_, ?_, ?_, ?_, ?_, ?_⟩
  · rw [placementLookup_undo_commit, hp]
    show some (if pid = pid then { p with canUndo := false } else p) = _
    rw [if_pos rfl]
  · intro htruthy
    rw [undo_commit_pixels, if_pos ⟨rfl, rfl⟩, if_pos htruthy]
  · intro hfalsy
    rw [undo_commit_pixels, if_pos ⟨rfl, rfl⟩, if_neg (by rw [hfalsy]; exact Bool.false_ne_true)]
  · intro px px' hpx hpx'
    rw [undo_commit_pixels, if_pos ⟨rfl, rfl⟩] at hpx'
    by_cases htruthy : pyTruthy p.prevColor = true
    · rw [if_pos htruthy, hpx] at hpx'
      have : { px with color := p.prevColor.getD "", ownerId := p.prevOwner } = px' :=
        Option.some.inj hpx'
      rw [← this]
      exact ⟨rfl, rfl⟩
    · rw [if_neg htruthy] at hpx'
      exact Option.noConfusion hpx'
  · rw [undo_commit_users, if_pos rfl, hrU]
    rfl
  · intro a b hab
    rw [undo_commit_pixels, if_neg hab]

/-- The concrete run refuting C2 as stated: user 1 (10000 credits) places
"#111111" on the empty cell (0,0) at t=10 (paid, cost 1000, level 0 -> 1000),
overwrites it with "#222222" at t=12 (paid, cost 2000, level -> 2000), then
undoes the second placement at t=13.  Returns the cell's cost level, the
user's lifetime paid count and the cell's color after the undo. -/
def C2final : Option (Nat × Nat × String) :=
  match place_pixel (baseState 10000 0 0) 10 1 0 0 "#111111" false with
  | .error _ => none
  | .ok (s1, _) =>
    match place_pixel s1 12 1 0 0 "#222222" false with
    | .error _ => none
    | .ok (s2, r2) =>
      match undo_placement s2 13 r2.placementId 1 with
      | .error _ => none
      | .ok (s3, _) =>
        match s3.pixels 0 0, s3.users 1 with
        | some px, some u => some (px.costLevel, u.lifetimePaid, px.color)
        | _, _ => none

/-- C2 counterexample: after the undo the color is restored to "#111111",
but the cell's escalation level is still 2000 (the claim demands
2000 - 1000 = 1000) and the user's lifetime paid count is still 2 (the
claim demands 1): the undo decrements neither. -/
theorem C2_counterexample :
    C2final = some (2000, 2, "#111111") ∧ ¬((2000 : Nat) = 1000 ∧ (2 : Nat) = 1) :=
  ⟨by decide, by decide⟩

/-- Result state of the undo used as C2's witness scenario. -/
def C2wState : GState :=
  okSt (stateWithRecord 1000 1000 true)
    (undo_placement (stateWithRecord 1000 1000 true) 10 1 1)

/-- Response of the undo used as C2's witness scenario. -/
def C2wRes : UndoResult :=
  okRes { undoCost := 0, newBalance := 0 }
    (undo_placement (stateWithRecord 1000 1000 true) 10 1 1)

/-- C2 witness: user 1 undoes the paid record (cost 1000, fee 250) of
`stateWithRecord`; the characterization of the amended claim holds there. -/
theorem C2_undo_effect_amended_witness :
    ∃ p u, placementLookup (stateWithRecord 1000 1000 true) 1 = some p ∧
      (stateWithRecord 1000 1000 true).users 1 = some u ∧
      p.userId = 1 ∧ p.canUndo = true ∧
      placementLookup C2wState 1 = some { p with canUndo := false } ∧
      (pyTruthy p.prevColor = true →
        C2wState.pixels p.x p.y = ((stateWithRecord 1000 1000 true).pixels p.x p.y).map
          fun px => { px with color := p.prevColor.getD "", ownerId := p.prevOwner }) ∧
      (pyTruthy p.prevColor = false → C2wState.pixels p.x p.y = none) ∧
      (∀ px px', (stateWithRecord 1000 1000 true).pixels p.x p.y = some px →
        C2wState.pixels p.x p.y = some px' →
        px'.costLevel = px.costLevel ∧ px'.isAd = px.isAd) ∧
      C2wState.users 1 = some { credits := u.credits - (C2wRes.undoCost : Int)
                                lifetimePaid := u.lifetimePaid
                                undoEsc := u.undoEsc + 1
                                adViolations := u.adViolations } ∧
      (∀ a b, ¬(a = p.x ∧ b = p.y) →
        C2wState.pixels a b = (stateWithRecord 1000 1000 true).pixels a b) :=
  C2_undo_effect_amended (stateWithRecord 1000 1000 true) 10 1 1 C2wState C2wRes rfl

/-! ## C1 — balance after place-then-undo -/

/-- C1 (amended): for a paid placement committed at `t1` (no week boundary
crossed) and undone by the same user at `t2`, the balance after the undo
equals the balance before the placement **minus the original cost minus the
undo fee actually charged** (`ur.undoCost`, the fee the undo debits and
returns — the relation is stated against that fee, not against any fee
formula, so it is independent of how the floating-point fee rounds) — the
source's undo debits the fee but never refunds the original cost, so the
claim's `balance_before_placement - undo_cost` does not hold (see the
counterexample).  The fee's value is pinned only at undo-escalation count
0, where the source's `int(original_cost * 0.25)` equals
`original_cost / 4` exactly for every cost below `2^53` (`0.25` and
`c * 0.25` are exact doubles); at higher counts the source's binary doubles
can fall one credit below the exact decimal floor (see `undoCostFn`), so no
exact-floor fee formula is asserted there. -/
theorem C1_place_undo_balance_amended (st : GState) (t1 t2 : Int) (uid x y : Nat)
    (color : String) (ad : Bool) (st1 st2 : GState) (pr : PlaceResult) (ur : UndoResult)
    (u0 : UserRec)
    (hu : st.users uid = some u0)
    (hfresh : idsFresh st = true)
    (hnoreset : t1 - st.weekStart < WEEK_SECONDS)
    (hP : place_pixel st t1 uid x y color ad = .ok (st1, pr))
    (hpaid : pr.wasFree = false)
    (hU : undo_placement st1 t2 pr.placementId uid = .ok (st2, ur)) :
    (u0.undoEsc = 0 → pr.cost < 2 ^ 53 → ur.undoCost = pr.cost / 4) ∧
    ∃ u2, st2.users uid = some u2 ∧
      u2.credits = u0.credits - (pr.cost : Int) - (ur.undoCost : Int) := by
  obtain ⟨ua, hx, hy, hfz, hua, hrate, hcredOk, hst1, hpr⟩ := place_pixel_ok_inv hP
  have hres : check_and_reset_week t1 st = st := check_and_reset_week_not_crossed hnoreset
  rw [hres, hu] at hua
  have huau0 : u0 = ua := Option.some.inj hua
  subst huau0
  -- name the committed pieces
  set stMid := place_mid st t1 uid with hstMid
  set f := (is_free_placement_eligible stMid t1 uid).1 with hf
  set c := (if f = true then 0 else calculate_pixel_cost stMid x y) with hc
  -- the response fields
  have hprc : pr.cost = c := by rw [hpr, place_commit_snd]
  have hprf : pr.wasFree = f := by rw [hpr, place_commit_snd]
  have hprid : pr.placementId = stMid.nextPlacementId := by rw [hpr, place_commit_snd]
  have hmidpl : stMid.placements = st.placements := by rw [hstMid]; unfold place_mid; rw [hres]
  have hmidnid : stMid.nextPlacementId = st.nextPlacementId := by
    rw [hstMid]; unfold place_mid; rw [hres]
  have hmidusers : stMid.users = st.users := by rw [hstMid]; unfold place_mid; rw [hres]
  -- the appended record is found under the fresh id
  have hlook : placementLookup st1 pr.placementId =
      some (placedEntry stMid t1 uid x y color ad f c) := by
    rw [hst1]
    unfold placementLookup
    rw [(update_dynamic_cap_frame _).2.2.1, place_commit_placements, hmidpl, hprid, hmidnid]
    rw [find?_append_fresh st.placements st.nextPlacementId _ hfresh]
    rfl
  -- the user row after the commit
  have husers1 : st1.users uid = some (placedUser stMid x y ad f c u0) := by
    rw [hst1, (update_dynamic_cap_frame _).1, place_commit_users, if_pos rfl]
  -- invert the undo
  obtain ⟨p, u1, hfz1, hp1, hown1, hcan1, hw1, husr1, hcred1, hst2, hur⟩ :=
    undo_placement_ok_inv hU
  rw [hlook] at hp1
  have hpentry : p = placedEntry stMid t1 uid x y color ad f c :=
    (Option.some.inj hp1).symm
  rw [husers1] at husr1
  have hu1 : u1 = placedUser stMid x y ad f c u0 := (Option.some.inj husr1).symm
  have hpcost : p.cost = c := by rw [hpentry]; rfl
  obtain ⟨hu1c, hu1esc, hu1paid⟩ := placedUser_fields stMid x y ad f c u0
  have hfree_false : f = false := by rw [← hprf]; exact hpaid
  constructor
  · intro hesc hbound
    rw [hur]
    show undoCostFn p.cost u1.undoEsc = pr.cost / 4
    rw [hpcost, hprc, hu1, hu1esc, hesc]
    show c * (25 + 10 * 0) / 100 = c / 4
    omega
  · refine ⟨undoneUser u1 (undoCostFn p.cost u1.undoEsc), ?_, ?_⟩
    · rw [hst2, undo_commit_users, if_pos rfl]
    · show u1.credits - (undoCostFn p.cost u1.undoEsc : Int) =
        u0.credits - (pr.cost : Int) - (ur.undoCost : Int)
      rw [hur]
      show u1.credits - (undoCostFn p.cost u1.undoEsc : Int) =
        u0.credits - (pr.cost : Int) - (undoCostFn p.cost u1.undoEsc : Int)
      rw [hu1, hu1c, if_neg (by rw [hfree_false]; exact Bool.false_ne_true), hprc]

/-- Post-place state of the C1 witness run. -/
def C1s1 : GState :=
  okSt (baseState 10000 0 0) (place_pixel (baseState 10000 0 0) 10 1 0 0 "#111111" false)

/-- Place response of the C1 witness run. -/
def C1pr : PlaceResult :=
  okRes { cost := 0, wasFree := false, newBalance := 0, placementId := 0 }
    (place_pixel (baseState 10000 0 0) 10 1 0 0 "#111111" false)

/-- Post-undo state of the C1 witness run. -/
def C1s2 : GState := okSt C1s1 (undo_placement C1s1 20 C1pr.placementId 1)

/-- Undo response of the C1 witness run. -/
def C1ur : UndoResult :=
  okRes { undoCost := 0, newBalance := 0 } (undo_placement C1s1 20 C1pr.placementId 1)

/-- C1 witness: the concrete paid placement (cost 1000 from balance 10000)
undone ten seconds later at escalation 0 satisfies the amended relation. -/
theorem C1_place_undo_balance_amended_witness :
    ((UserRec.mk 10000 0 0 0).undoEsc = 0 → C1pr.cost < 2 ^ 53 →
      C1ur.undoCost = C1pr.cost / 4) ∧
    ∃ u2, C1s2.users 1 = some u2 ∧
      u2.credits = 10000 - (C1pr.cost : Int) - (C1ur.undoCost : Int) :=
  C1_place_undo_balance_amended (baseState 10000 0 0) 10 20 1 0 0 "#111111" false
    C1s1 C1s2 C1pr C1ur (UserRec.mk 10000 0 0 0) rfl rfl (by decide) rfl rfl rfl

/-- The concrete run refuting C1 as stated: balance 10000, paid placement
of cost 1000, undone at escalation 0 (fee 250).  Returns the final balance
and the fee. -/
def C1final : Option (Int × Nat) :=
  match place_pixel (baseState 10000 0 0) 10 1 0 0 "#111111" false with
  | .error _ => none
  | .ok (s1, r1) =>
    match undo_placement s1 20 r1.placementId 1 with
    | .error _ => none
    | .ok (s2, r2) => (s2.users 1).map fun u => (u.credits, r2.undoCost)

/-- C1 counterexample: the run ends with balance 8750 = 10000 - 1000 - 250,
not the 10000 - 250 = 9750 the claim requires — the original cost is never
refunded. -/
theorem C1_counterexample :
    C1final = some (8750, 250) ∧ ¬((8750 : Int) = 10000 - 250) :=
  ⟨by decide, by decide⟩

/-! ## C3 — escalation level across placement sequences -/

/-- One request of a replayed placement sequence. -/
structure PlaceReq where
  t : Int
  uid : Nat
  x : Nat
  y : Nat
  color : String
  isAd : Bool

/-- Apply one request: the committed state on success, the unchanged state
on a rejection. -/
def applyReq (st : GState) (r : PlaceReq) : GState :=
  match place_pixel st r.t r.uid r.x r.y r.color r.isAd with
  | .ok (st', _) => st'
  | .error _ => st

/-- Replay a request list left to right. -/
def applyReqs : GState → List PlaceReq → GState
  | st, [] => st
  | st, r :: rs => applyReqs (applyReq st r) rs

/-- Whether a request, fired on this state, commits and targets cell (x,y). -/
def hitsCell (st : GState) (r : PlaceReq) (x y : Nat) : Bool :=
  (r.x = x && r.y = y) &&
    (match place_pixel st r.t r.uid r.x r.y r.color r.isAd with
     | .ok _ => true
     | .error _ => false)

/-- Number of committed placements on cell (x,y) along the replay. -/
def successCount : GState → List PlaceReq → Nat → Nat → Nat
  | _, [], _, _ => 0
  | st, r :: rs, x, y =>
    (if hitsCell st r x y = true then 1 else 0) + successCount (applyReq st r) rs x y

/-- No lazy week reset fires at any step of the replay. -/
def NoResetRun : GState → List PlaceReq → Prop
  | _, [] => True
  | st, r :: rs => r.t - st.weekStart < WEEK_SECONDS ∧ NoResetRun (applyReq st r) rs

theorem cellLevel_congr {s1 s2 : GState} (h : s1.pixels = s2.pixels) (x y : Nat) :
    cellLevel s1 x y = cellLevel s2 x y := by
  unfold cellLevel
  rw [h]

theorem cellLevel_place_commit (st2 : GState) (now : Int) (uid x y : Nat) (color : String)
    (isAd isFree : Bool) (cost : Nat) (u : UserRec) (a b : Nat) :
    cellLevel (place_commit st2 now uid x y color isAd isFree cost u).1 a b =
      if a = x ∧ b = y then cellLevel st2 x y + COST_INCREMENT_CREDITS
      else cellLevel st2 a b := by
  unfold cellLevel
  rw [place_commit_pixels]
  by_cases hab : a = x ∧ b = y
  · rw [if_pos hab, if_pos hab]
    rfl
  · rw [if_neg hab, if_neg hab]

/-- A committed placement raises the target cell's level by exactly
`COST_INCREMENT_CREDITS`; a rejected request changes nothing. -/
theorem cellLevel_applyReq (st : GState) (r : PlaceReq) (x y : Nat)
    (hnr : r.t - st.weekStart < WEEK_SECONDS) :
    cellLevel (applyReq st r) x y =
      cellLevel st x y +
        (if hitsCell st r x y = true then COST_INCREMENT_CREDITS else 0) := by
  have hres' : check_and_reset_week r.t st = st := check_and_reset_week_not_crossed hnr
  unfold applyReq hitsCell
  cases hres : place_pixel st r.t r.uid r.x r.y r.color r.isAd with
  | error e => simp
  | ok pr =>
    obtain ⟨u0, hx, hy, hfz, hu0, hrate, hcredOk, hst1, hpr⟩ :=
      place_pixel_ok_inv
        (show place_pixel st r.t r.uid r.x r.y r.color r.isAd = .ok (pr.1, pr.2) by
          rw [hres])
    have hmidpix : (place_mid st r.t r.uid).pixels = st.pixels := by
      unfold place_mid
      rw [hres']
    show cellLevel pr.1 x y = _
    rw [hst1, cellLevel_congr ((update_dynamic_cap_frame _).2.1), cellLevel_place_commit]
    simp only [cellLevel_congr hmidpix, Bool.and_true]
    by_cases hxy : x = r.x ∧ y = r.y
    · obtain ⟨h1, h2⟩ := hxy
      subst h1
      subst h2
      simp
    · rw [if_neg hxy]
      have hb : ¬(r.x = x ∧ r.y = y) := fun he => hxy ⟨he.1.symm, he.2.symm⟩
      have : (decide (r.x = x) && decide (r.y = y)) = false := by
        rcases Nat.decEq r.x x with _ | _ <;> rcases Nat.decEq r.y y with _ | _ <;>
          simp_all
      rw [this]
      simp

/-- C3 (amended): over any replayed placement sequence in which no weekly
reset fires, a cell's escalation level grows by exactly
`COST_INCREMENT_CREDITS = 1000` — not 1 — per committed placement on that
cell, **whether the placement was paid or free**: the level equals its
initial value plus 1000 times the number of committed placements (paid and
free alike) on the cell, and so does not equal the number of paid
overwrites (see the counterexample). -/
theorem C3_level_counts_amended (rs : List PlaceReq) (st : GState) (x y : Nat)
    (h : NoResetRun st rs) :
    cellLevel (applyReqs st rs) x y =
      cellLevel st x y + COST_INCREMENT_CREDITS * successCount st rs x y := by
  induction rs generalizing st with
  | nil =>
    show cellLevel st x y = cellLevel st x y + COST_INCREMENT_CREDITS * 0
    omega
  | cons r rs ih =>
    obtain ⟨h1, h2⟩ := h
    show cellLevel (applyReqs (applyReq st r) rs) x y = _
    rw [ih (applyReq st r) h2, cellLevel_applyReq st r x y h1]
    show _ = cellLevel st x y + COST_INCREMENT_CREDITS *
      ((if hitsCell st r x y = true then 1 else 0) + successCount (applyReq st r) rs x y)
    split <;> ring

/-- C3 witness: one committed paid placement on the empty cell (0,0)
raises its level from 0 to 1000 * 1. -/
theorem C3_level_counts_amended_witness :
    cellLevel (applyReqs (baseState 10000 0 0) [PlaceReq.mk 10 1 0 0 "#111111" false]) 0 0 =
      cellLevel (baseState 10000 0 0) 0 0 +
        COST_INCREMENT_CREDITS *
          successCount (baseState 10000 0 0) [PlaceReq.mk 10 1 0 0 "#111111" false] 0 0 :=
  C3_level_counts_amended [PlaceReq.mk 10 1 0 0 "#111111" false] (baseState 10000 0 0) 0 0
    ⟨by decide, trivial⟩

/-- The concrete run refuting C3 as stated: after 2000 seconds of global
inactivity user 1 (0 paid placements) gets a **free** placement on the
empty cell (0,0); the run returns the cell's level and the free flag. -/
def C3final : Option (Nat × Bool) :=
  match place_pixel (baseState 10000 0 0) 2000 1 0 0 "#111111" false with
  | .error _ => none
  | .ok (s1, r1) => (s1.pixels 0 0).map fun px => (px.costLevel, r1.wasFree)

/-- C3 counterexample: the placement is free (`wasFree = true`) and the
cell has received 0 paid overwrites, yet its escalation level afterwards is
1000, not 0 — a free placement does not leave the level unchanged, and the
level is not the count of paid overwrites. -/
theorem C3_counterexample :
    C3final = some (1000, true) ∧ ¬((1000 : Nat) = 0) :=
  ⟨by decide, by decide⟩
